import Mathlib

/-!
# Parcel store (`parcel.go`)

A verification development for the data-access layer `ParcelStore`.

The store is a thin wrapper around a relational database handle.  The handle
and the database engine behind it are collaborators supplied from outside; they
are represented here by an explicit state (`DB`: the rows of the `parcel` table
in storage order together with the AUTOINCREMENT counter) and by an explicit
description of the engine failures that happen during one call (`Faults`).
Every method of `ParcelStore` is transcribed statement by statement on top of
that interface.
-/

namespace Tracker

/-! ## Data model -/

/-- Modelled from the spec: the `Parcel` struct declaration, which the store uses
but which is declared outside `parcel.go`.  Five fields: the number (primary
key), the client id, the address, the status and the creation timestamp. -/
structure Parcel where
  Number : Int
  Client : Int
  Address : String
  Status : String
  CreatedAt : String
deriving DecidableEq, Repr

/-- The zero value `Parcel{}`. -/
def Parcel.zero : Parcel :=
  { Number := 0, Client := 0, Address := "", Status := "", CreatedAt := "" }

/-- Modelled from the spec: the status constant `ParcelStatusRegistered`, declared
outside `parcel.go`; the status that permits address changes and deletion. -/
def ParcelStatusRegistered : String := "registered"

/-- Modelled from the spec: the status constant `ParcelStatusSent`. -/
def ParcelStatusSent : String := "sent"

/-- Modelled from the spec: the status constant `ParcelStatusDelivered`. -/
def ParcelStatusDelivered : String := "delivered"

/-- Errors a store method can hand back: the distinguished `sql.ErrNoRows`, or a
failure reported by the storage engine (identified by its result code). -/
inductive Error where
  | ErrNoRows
  | storage (code : Nat)
deriving DecidableEq, Repr

/-! ## The database handle -/

/-- Largest rowid of the engine (a signed 64-bit integer). -/
def MAX_ROWID : Int := 9223372036854775807

/-- Engine result code "database or disk is full". -/
def SQLITE_FULL : Nat := 13

/-- Modelled from the spec: the table `parcel(number, client, address, status,
created_at)`, which is created outside `parcel.go`.  The state behind the handle
is the list of its rows in storage order and the AUTOINCREMENT counter of the
table (largest number handed out so far). -/
structure DB where
  rows : List Parcel
  seq : Nat
deriving DecidableEq, Repr

/-- The table right after its creation. -/
def DB.empty : DB := { rows := [], seq := 0 }

/-- Engine failures during one call of a store method.  `exec` is a failure of
the statement itself (`Exec`, `Query`, `QueryRow`), `lastId` a failure of
`LastInsertId`, `scan k` a failure of scanning the `k`-th row of a result set
and `iter k` a failure of the cursor when it is asked for the `k`-th row (the
cursor then stops and reports the error through `Err`). -/
structure Faults where
  exec : Option Nat
  lastId : Option Nat
  scan : Nat → Option Nat
  iter : Nat → Option Nat

/-- A call during which the engine reports no failure. -/
def noFaults : Faults :=
  { exec := none, lastId := none, scan := fun _ => none, iter := fun _ => none }

/-- The statements the store executes, with their bound named parameters. -/
inductive ExecStmt where
  | insertParcel (client : Int) (address status created_at : String)
  | updateStatus (status : String) (number : Int)
  | updateAddress (address : String) (number : Int) (status : String)
  | deleteParcel (number : Int) (status : String)

/-- The queries the store runs, with their bound named parameters. -/
inductive QueryStmt where
  | selectByNumber (number : Int)
  | selectByClient (client : Int)

/-- Value of `sql.Result`. -/
structure Result where
  lastInsertId : Int
  rowsAffected : Nat
deriving DecidableEq, Repr

/-- Largest number stored in the table, `0` for the empty table. -/
def maxNumber : List Parcel → Int
  | [] => 0
  | r :: rs => max r.Number (maxNumber rs)

/-- Modelled from the spec: the schema of table `parcel`, which is created outside
`parcel.go`: `number INTEGER PRIMARY KEY AUTOINCREMENT`.  The number the engine
gives to the next inserted row is one more than the largest number that is or
ever was in the table; the insert fails with `SQLITE_FULL` once the largest
rowid has been used. -/
def DB.nextRowid (db : DB) : Except Error Int :=
  let m := max (maxNumber db.rows) (db.seq : Int)
  if MAX_ROWID ≤ m then .error (.storage SQLITE_FULL) else .ok (m + 1)

/-- Execution of one statement: the result or the error, and the state
afterwards.  A failed statement leaves the table as it was. -/
def DB.Exec (db : DB) (fault : Option Nat) : ExecStmt → Except Error Result × DB
  | .insertParcel client address status created_at =>
    match fault with
    | some c => (.error (.storage c), db)
    | none =>
      match db.nextRowid with
      | .error e => (.error e, db)
      | .ok id =>
        (.ok { lastInsertId := id, rowsAffected := 1 },
         { rows := db.rows ++ [{ Number := id, Client := client, Address := address,
                                 Status := status, CreatedAt := created_at }],
           seq := id.toNat })
  | .updateStatus status number =>
    match fault with
    | some c => (.error (.storage c), db)
    | none =>
      (.ok { lastInsertId := 0,
             rowsAffected := db.rows.countP (fun r => decide (r.Number = number)) },
       { db with rows := db.rows.map (fun r =>
           if r.Number = number then { r with Status := status } else r) })
  | .updateAddress address number status =>
    match fault with
    | some c => (.error (.storage c), db)
    | none =>
      (.ok { lastInsertId := 0,
             rowsAffected := db.rows.countP
               (fun r => decide (r.Number = number ∧ r.Status = status)) },
       { db with rows := db.rows.map (fun r =>
           if r.Number = number ∧ r.Status = status then { r with Address := address }
           else r) })
  | .deleteParcel number status =>
    match fault with
    | some c => (.error (.storage c), db)
    | none =>
      (.ok { lastInsertId := 0,
             rowsAffected := db.rows.countP
               (fun r => decide (r.Number = number ∧ r.Status = status)) },
       { db with rows := db.rows.filter (fun r =>
           !decide (r.Number = number ∧ r.Status = status)) })

/-- Method `LastInsertId` of `sql.Result`. -/
def Result.LastInsertId (res : Result) (fault : Option Nat) : Except Error Int :=
  match fault with
  | some c => .error (.storage c)
  | none => .ok res.lastInsertId

/-- Rows selected by a query, in storage order. -/
def DB.select (db : DB) : QueryStmt → List Parcel
  | .selectByNumber number => db.rows.filter (fun r => decide (r.Number = number))
  | .selectByClient client => db.rows.filter (fun r => decide (r.Client = client))

/-- Method `Query` of the handle: the result set, or the error of the query. -/
def DB.Query (db : DB) (fault : Option Nat) (q : QueryStmt) : Except Error (List Parcel) :=
  match fault with
  | some c => .error (.storage c)
  | none => .ok (db.select q)

/-- Value of `*sql.Row`: the deferred error of the query, or its result set. -/
structure Row where
  err : Option Error
  rows : List Parcel

/-- Method `QueryRow` of the handle; a failure is kept for `Scan`. -/
def DB.QueryRow (db : DB) (fault : Option Nat) (q : QueryStmt) : Row :=
  match db.Query fault q with
  | .error e => { err := some e, rows := [] }
  | .ok rs => { err := none, rows := rs }

/-- Method `Scan` of `*sql.Row`: the deferred error, `ErrNoRows` when the result
set is empty, else the first row (unless scanning it fails). -/
def Row.Scan (r : Row) (fault : Option Nat) : Except Error Parcel :=
  match r.err with
  | some e => .error e
  | none =>
    match r.rows with
    | [] => .error .ErrNoRows
    | p :: _ =>
      match fault with
      | some c => .error (.storage c)
      | none => .ok p

/-- Conversion `int(id)` of an `int64` (two's complement, 64 bits). -/
def toInt (x : Int) : Int := (x + 2 ^ 63) % 2 ^ 64 - 2 ^ 63

/-! ## ParcelStore -/

/-- The store: a database handle. -/
structure ParcelStore where
  db : DB
deriving DecidableEq, Repr

/-- Constructor `NewParcelStore`. -/
def NewParcelStore (db : DB) : ParcelStore := { db := db }

/-- What a call does to the process: it returns to its caller (a value and an
optional error), or it ends the process (`log.Fatal`). -/
inductive Outcome (α : Type) where
  | returned (val : α) (err : Option Error)
  | fatal (err : Error)
deriving DecidableEq, Repr

/-- Method `Add`: inserts the four fields of `p`, returns the number assigned. -/
def ParcelStore.Add (s : ParcelStore) (env : Faults) (p : Parcel) :
    (Int × Option Error) × ParcelStore :=
  match s.db.Exec env.exec (.insertParcel p.Client p.Address p.Status p.CreatedAt) with
  | (.error err, db) => ((0, some err), { db := db })
  | (.ok res, db) =>
    match res.LastInsertId env.lastId with
    | .error err => ((0, some err), { db := db })
    | .ok id => ((toInt id, none), { db := db })

/-- Method `Get`: the row with the given number. -/
def ParcelStore.Get (s : ParcelStore) (env : Faults) (number : Int) : Parcel × Option Error :=
  let row := s.db.QueryRow env.exec (.selectByNumber number)
  match row.Scan (env.scan 0) with
  | .error err => (Parcel.zero, some err)
  | .ok p => (p, none)

/-- How the loop `for rows.Next()` of `GetByClient` is left. -/
inductive LoopExit where
  | scanFailed (err : Error)
  | exhausted (res : List Parcel) (rowsErr : Option Error)
deriving DecidableEq, Repr

/-- The loop `for rows.Next() { ...Scan...; res = append(res, p) }` over the rows
still to come; `k` is the index of the next row and `res` the slice built so
far.  `Next` is false at the end of the result set or when the cursor fails. -/
def scanRows (env : Faults) : List Parcel → Nat → List Parcel → LoopExit
  | [], k, res => .exhausted res ((env.iter k).map Error.storage)
  | p :: rest, k, res =>
    match env.iter k with
    | some c => .exhausted res (some (.storage c))
    | none =>
      match env.scan k with
      | some c => .scanFailed (.storage c)
      | none => scanRows env rest (k + 1) (res ++ [p])

/-- Method `GetByClient`: the rows of one client. -/
def ParcelStore.GetByClient (s : ParcelStore) (env : Faults) (client : Int) :
    Outcome (List Parcel) :=
  match s.db.Query env.exec (.selectByClient client) with
  | .error err => .returned [] (some err)
  | .ok rows =>
    match scanRows env rows 0 [] with
    | .scanFailed err => .returned [] (some err)
    | .exhausted res rowsErr =>
      match rowsErr with
      | some err => .fatal err
      | none => .returned res none

/-- Method `SetStatus`. -/
def ParcelStore.SetStatus (s : ParcelStore) (env : Faults) (number : Int) (status : String) :
    Option Error × ParcelStore :=
  match s.db.Exec env.exec (.updateStatus status number) with
  | (.error err, db) => (some err, { db := db })
  | (.ok _, db) => (none, { db := db })

/-- Method `SetAddress`. -/
def ParcelStore.SetAddress (s : ParcelStore) (env : Faults) (number : Int) (address : String) :
    Option Error × ParcelStore :=
  match s.db.Exec env.exec (.updateAddress address number ParcelStatusRegistered) with
  | (.error err, db) => (some err, { db := db })
  | (.ok _, db) => (none, { db := db })

/-- Method `Delete`. -/
def ParcelStore.Delete (s : ParcelStore) (env : Faults) (number : Int) :
    Option Error × ParcelStore :=
  match s.db.Exec env.exec (.deleteParcel number ParcelStatusRegistered) with
  | (.error err, db) => (some err, { db := db })
  | (.ok _, db) => (none, { db := db })

/-! ## Sequences of calls -/

/-- One call of a store method, with the engine failures that happen during it. -/
inductive Call where
  | Add (env : Faults) (p : Parcel)
  | Get (env : Faults) (number : Int)
  | GetByClient (env : Faults) (client : Int)
  | SetStatus (env : Faults) (number : Int) (status : String)
  | SetAddress (env : Faults) (number : Int) (address : String)
  | Delete (env : Faults) (number : Int)

/-- Numbers returned by the successful `Add` calls of a sequence of calls, in the
order of the calls.  The table outlives the process: a `GetByClient` that ends
the process leaves it as it is, and the calls that follow (of a restarted
process) are still counted. -/
def addedNumbers (s : ParcelStore) : List Call → List Int
  | [] => []
  | .Add env p :: cs =>
    match s.Add env p with
    | ((n, none), s') => n :: addedNumbers s' cs
    | ((_, some _), s') => addedNumbers s' cs
  | .Get _ _ :: cs => addedNumbers s cs
  | .GetByClient env client :: cs =>
    match s.GetByClient env client with
    | .fatal _ => addedNumbers s cs
    | .returned _ _ => addedNumbers s cs
  | .SetStatus env number status :: cs => addedNumbers (s.SetStatus env number status).2 cs
  | .SetAddress env number address :: cs => addedNumbers (s.SetAddress env number address).2 cs
  | .Delete env number :: cs => addedNumbers (s.Delete env number).2 cs

/-- Test helper `getTestParcel` of `parcel_test.go`; `now` is the formatted time. -/
def getTestParcel (now : String) : Parcel :=
  { Number := 0, Client := 1000, Status := ParcelStatusRegistered, Address := "test",
    CreatedAt := now }

/-- A store right after the first `Add` of the test parcel on a new table. -/
def storeOne : ParcelStore :=
  { db := { rows := [{ Number := 1, Client := 1000, Address := "test",
                       Status := "registered", CreatedAt := "2024-05-01T10:00:00Z" }],
            seq := 1 } }

/-- A store with a registered parcel, a sent parcel, and a deleted number. -/
def storeTwo : ParcelStore :=
  { db := { rows := [{ Number := 1, Client := 1000, Address := "test",
                       Status := "registered", CreatedAt := "2024-05-01T10:00:00Z" },
                     { Number := 3, Client := 42, Address := "depot",
                       Status := "sent", CreatedAt := "2024-05-02T08:30:00Z" }],
            seq := 3 } }

/-- Modelled from the spec: the constraint `PRIMARY KEY` on column `number` of the
schema, which is declared outside `parcel.go`: no two rows share a number. -/
def PrimaryKey (db : DB) : Prop := (db.rows.map (fun r => r.Number)).Nodup

instance (db : DB) : Decidable (PrimaryKey db) := by
  unfold PrimaryKey; infer_instance

/-! ## Auxiliary facts about the table -/

theorem le_maxNumber {rows : List Parcel} {r : Parcel} (hr : r ∈ rows) :
    r.Number ≤ maxNumber rows := by
  induction rows with
  | nil => cases hr
  | cons a t ih =>
    simp only [maxNumber]
    rcases List.mem_cons.mp hr with h | h
    · subst h; exact le_max_left _ _
    · exact le_trans (ih h) (le_max_right _ _)

theorem maxNumber_nonneg (rows : List Parcel) : 0 ≤ maxNumber rows := by
  induction rows with
  | nil => simp [maxNumber]
  | cons a t ih => simp only [maxNumber]; exact le_trans ih (le_max_right _ _)

theorem select_fresh {rows : List Parcel} {n : Int} (hn : maxNumber rows < n) :
    rows.filter (fun x => decide (x.Number = n)) = [] := by
  rw [List.filter_eq_nil_iff]
  intro x hx
  have := le_maxNumber hx
  simp only [decide_eq_true_eq]
  omega

theorem select_unique {rows : List Parcel} (hpk : (rows.map (fun x => x.Number)).Nodup)
    {r : Parcel} (hr : r ∈ rows) :
    rows.filter (fun x => decide (x.Number = r.Number)) = [r] := by
  induction rows with
  | nil => cases hr
  | cons a t ih =>
    rw [List.map_cons, List.nodup_cons] at hpk
    obtain ⟨ha, ht⟩ := hpk
    rcases List.mem_cons.mp hr with h | h
    · subst h
      have hnil : t.filter (fun x => decide (x.Number = r.Number)) = [] := by
        rw [List.filter_eq_nil_iff]
        intro x hx hxe
        exact ha (List.mem_map.mpr ⟨x, hx, by simpa using hxe⟩)
      simp [List.filter_cons, hnil]
    · have hne : a.Number ≠ r.Number := by
        intro he
        exact ha (List.mem_map.mpr ⟨r, h, he.symm⟩)
      simp [List.filter_cons, hne, ih ht h]

theorem select_absent {rows : List Parcel} {n : Int} (hn : ∀ r ∈ rows, r.Number ≠ n) :
    rows.filter (fun x => decide (x.Number = n)) = [] := by
  rw [List.filter_eq_nil_iff]
  intro x hx
  simpa using hn x hx

theorem select_map {rows : List Parcel} (f : Parcel → Parcel) (n : Int)
    (hf : ∀ r, (f r).Number = r.Number) :
    (rows.map f).filter (fun x => decide (x.Number = n)) =
      (rows.filter (fun x => decide (x.Number = n))).map f := by
  induction rows with
  | nil => rfl
  | cons a t ih =>
    by_cases h : a.Number = n
    · simp [List.filter_cons, hf, h, ih]
    · simp [List.filter_cons, hf, h, ih]

/-- What `Get` computes, in one expression. -/
theorem Get_eq (s : ParcelStore) (env : Faults) (n : Int) :
    s.Get env n =
      match env.exec with
      | some c => (Parcel.zero, some (.storage c))
      | none =>
        match s.db.rows.filter (fun x => decide (x.Number = n)) with
        | [] => (Parcel.zero, some .ErrNoRows)
        | p :: _ =>
          match env.scan 0 with
          | some c => (Parcel.zero, some (.storage c))
          | none => (p, none) := by
  unfold ParcelStore.Get DB.QueryRow DB.Query Row.Scan DB.select
  cases env.exec with
  | some c => rfl
  | none =>
    simp only
    cases s.db.rows.filter (fun x => decide (x.Number = n)) with
    | nil => rfl
    | cons p t =>
      simp only
      cases env.scan 0 <;> rfl

theorem toInt_of_range {x : Int} (h0 : 0 ≤ x) (h1 : x ≤ MAX_ROWID) : toInt x = x := by
  unfold toInt
  unfold MAX_ROWID at h1
  omega

/-- What a successful `Add` did. -/
theorem Add_ok {s s' : ParcelStore} {env : Faults} {p : Parcel} {n : Int}
    (h : s.Add env p = ((n, none), s')) :
    n = max (maxNumber s.db.rows) (s.db.seq : Int) + 1 ∧ n ≤ MAX_ROWID ∧
    s'.db.rows = s.db.rows ++ [{ p with Number := n }] ∧ s'.db.seq = n.toNat := by
  unfold ParcelStore.Add DB.Exec DB.nextRowid Result.LastInsertId at h
  cases hx : env.exec with
  | some c => simp [hx] at h
  | none =>
    simp only [hx] at h
    by_cases hfull : MAX_ROWID ≤ max (maxNumber s.db.rows) (s.db.seq : Int)
    · simp [hfull] at h
    · simp only [hfull, if_false] at h
      cases hl : env.lastId with
      | some c => simp [hl] at h
      | none =>
        simp only [hl] at h
        have hm0 : 0 ≤ max (maxNumber s.db.rows) (s.db.seq : Int) :=
          le_trans (maxNumber_nonneg _) (le_max_left _ _)
        have hconv : toInt (max (maxNumber s.db.rows) (s.db.seq : Int) + 1) =
            max (maxNumber s.db.rows) (s.db.seq : Int) + 1 :=
          toInt_of_range (by omega) (by omega)
        rw [hconv] at h
        simp only [Prod.mk.injEq, and_true] at h
        obtain ⟨hn, hs⟩ := h
        subst hs
        subst hn
        refine ⟨rfl, by omega, rfl, rfl⟩

theorem eq_of_number_eq {rows : List Parcel} (hpk : (rows.map (fun x => x.Number)).Nodup)
    {x y : Parcel} (hx : x ∈ rows) (hy : y ∈ rows) (h : x.Number = y.Number) : x = y := by
  have hmem : x ∈ rows.filter (fun z => decide (z.Number = y.Number)) :=
    List.mem_filter.mpr ⟨hx, by simpa using h⟩
  rw [select_unique hpk hy] at hmem
  simpa using hmem

theorem map_eq_self {rows : List Parcel} (f : Parcel → Parcel) (hf : ∀ x ∈ rows, f x = x) :
    rows.map f = rows := by
  induction rows with
  | nil => rfl
  | cons a t ih =>
    rw [List.map_cons, hf a (List.mem_cons_self _ _),
      ih (fun x hx => hf x (List.mem_cons_of_mem _ hx))]

/-- What `Get` returns for a stored row when the engine does not fail. -/
theorem Get_stored {s : ParcelStore} (hpk : PrimaryKey s.db) {r : Parcel}
    (hr : r ∈ s.db.rows) {env : Faults} (he : env.exec = none) (hs : env.scan 0 = none) :
    s.Get env r.Number = (r, none) := by
  rw [Get_eq, he, select_unique hpk hr]
  simp [hs]

/-- What `Get` returns for a number that is not stored. -/
theorem Get_absent {s : ParcelStore} {n : Int} (hn : ∀ r ∈ s.db.rows, r.Number ≠ n)
    {env : Faults} (he : env.exec = none) :
    s.Get env n = (Parcel.zero, some .ErrNoRows) := by
  rw [Get_eq, he, select_absent hn]

theorem SetStatus_eq (s : ParcelStore) (env : Faults) (n : Int) (st : String) :
    s.SetStatus env n st =
      match env.exec with
      | some c => (some (.storage c), s)
      | none => (none, { db := { s.db with rows := s.db.rows.map (fun r =>
          if r.Number = n then { r with Status := st } else r) } }) := by
  unfold ParcelStore.SetStatus DB.Exec
  cases env.exec <;> rfl

theorem SetAddress_eq (s : ParcelStore) (env : Faults) (n : Int) (a : String) :
    s.SetAddress env n a =
      match env.exec with
      | some c => (some (.storage c), s)
      | none => (none, { db := { s.db with rows := s.db.rows.map (fun r =>
          if r.Number = n ∧ r.Status = ParcelStatusRegistered then { r with Address := a }
          else r) } }) := by
  unfold ParcelStore.SetAddress DB.Exec
  cases env.exec <;> rfl

theorem Delete_eq (s : ParcelStore) (env : Faults) (n : Int) :
    s.Delete env n =
      match env.exec with
      | some c => (some (.storage c), s)
      | none => (none, { db := { s.db with rows := s.db.rows.filter (fun r =>
          !decide (r.Number = n ∧ r.Status = ParcelStatusRegistered)) } }) := by
  unfold ParcelStore.Delete DB.Exec
  cases env.exec <;> rfl

/-! ## The claims -/

/-- C1. Add/Get round trip: when `Add p` succeeds and returns `n`, a `Get n` issued
right afterwards (during which the engine does not fail) succeeds and returns `p`
with its `Number` set to `n`: same `Client`, `Address`, `Status` and `CreatedAt`. -/
theorem add_get_roundtrip (s s' : ParcelStore) (env env' : Faults) (p : Parcel) (n : Int)
    (hadd : s.Add env p = ((n, none), s'))
    (he : env'.exec = none) (hs : env'.scan 0 = none) :
    s'.Get env' n = ({ p with Number := n }, none) := by
  obtain ⟨hn, -, hrows, -⟩ := Add_ok hadd
  have hfresh : maxNumber s.db.rows < n := by
    have := le_max_left (maxNumber s.db.rows) (s.db.seq : Int)
    omega
  rw [Get_eq, he, hrows, List.filter_append, select_fresh hfresh]
  simp [List.filter_cons, hs]

/-- C2. Deleting a registered parcel removes it: for a table that satisfies its
primary key and a row `r` numbered `n` with status "registered", `Delete n`
(during which the engine does not fail) returns no error, no row numbered `n`
is left, and a `Get n` issued afterwards fails with `ErrNoRows`, an error
different from every storage error (which is what `Get` returns when the engine
fails instead). -/
theorem delete_registered (s : ParcelStore) (env : Faults) (n : Int) (r : Parcel)
    (hpk : PrimaryKey s.db) (hr : r ∈ s.db.rows) (hn : r.Number = n)
    (hst : r.Status = ParcelStatusRegistered) (he : env.exec = none) :
    (s.Delete env n).1 = none ∧
    (∀ x ∈ (s.Delete env n).2.db.rows, x.Number ≠ n) ∧
    (∀ env' : Faults, env'.exec = none →
      (s.Delete env n).2.Get env' n = (Parcel.zero, some .ErrNoRows)) ∧
    (∀ (env' : Faults) (c : Nat), env'.exec = some c →
      (s.Delete env n).2.Get env' n = (Parcel.zero, some (.storage c))) ∧
    (∀ c : Nat, Error.ErrNoRows ≠ Error.storage c) := by
  have hgone : ∀ x ∈ (s.Delete env n).2.db.rows, x.Number ≠ n := by
    rw [Delete_eq, he]
    intro x hx hxn
    simp only [List.mem_filter] at hx
    obtain ⟨hxr, hxp⟩ := hx
    have hxe : x = r := eq_of_number_eq hpk hxr hr (hxn.trans hn.symm)
    subst hxe
    simp [hxn, hst] at hxp
  refine ⟨by rw [Delete_eq, he], hgone, ?_, ?_, ?_⟩
  · intro env' he'
    exact Get_absent hgone he'
  · intro env' c he'
    rw [Get_eq, he']
  · intro c h
    cases h

/-- C3. Deleting a parcel that is not registered is a silent no-op: for a table that
satisfies its primary key and a row `r` numbered `n` whose status is not
"registered", `Delete n` (during which the engine does not fail) returns no error
and leaves the store as it was, so `Get n` returns afterwards what it returned
before, namely `r`. -/
theorem delete_not_registered (s : ParcelStore) (env : Faults) (n : Int) (r : Parcel)
    (hpk : PrimaryKey s.db) (hr : r ∈ s.db.rows) (hn : r.Number = n)
    (hst : r.Status ≠ ParcelStatusRegistered) (he : env.exec = none) :
    s.Delete env n = (none, s) ∧
    (∀ env' : Faults, (s.Delete env n).2.Get env' n = s.Get env' n) ∧
    (∀ env' : Faults, env'.exec = none → env'.scan 0 = none →
      (s.Delete env n).2.Get env' n = (r, none)) := by
  have hsame : s.Delete env n = (none, s) := by
    rw [Delete_eq, he]
    have hrows : s.db.rows.filter (fun x =>
        !decide (x.Number = n ∧ x.Status = ParcelStatusRegistered)) = s.db.rows := by
      rw [List.filter_eq_self]
      intro x hx
      by_cases hxn : x.Number = n
      · have hxe : x = r := eq_of_number_eq hpk hx hr (hxn.trans hn.symm)
        subst hxe
        simp [hst]
      · simp [hxn]
    simp only [hrows]
  refine ⟨hsame, ?_, ?_⟩
  · intro env'
    rw [hsame]
  · intro env' he' hs'
    rw [hsame, ← hn]
    exact Get_stored hpk hr he' hs'

/-- C4. Changing the address of a registered parcel: for a table that satisfies its
primary key and a row `r` numbered `n` with status "registered", `SetAddress n a`
returns no error and `Get n` afterwards returns `r` with its `Address` set to `a`
(the engine failing during neither call). -/
theorem setAddress_registered (s : ParcelStore) (env env' : Faults) (n : Int) (a : String)
    (r : Parcel) (hpk : PrimaryKey s.db) (hr : r ∈ s.db.rows) (hn : r.Number = n)
    (hst : r.Status = ParcelStatusRegistered) (he : env.exec = none)
    (he' : env'.exec = none) (hs' : env'.scan 0 = none) :
    (s.SetAddress env n a).1 = none ∧
    (s.SetAddress env n a).2.Get env' n = ({ r with Address := a }, none) ∧
    ((s.SetAddress env n a).2.Get env' n).1.Address = a := by
  have hget : (s.SetAddress env n a).2.Get env' n = ({ r with Address := a }, none) := by
    rw [SetAddress_eq, he, Get_eq, he']
    simp only
    rw [select_map _ n (by intro x; split <;> rfl), ← hn, select_unique hpk hr]
    simp [hs', hst]
  refine ⟨by rw [SetAddress_eq, he], hget, by rw [hget]⟩

/-- C5. Changing the address of a parcel that is not registered is a silent no-op:
for a table that satisfies its primary key and a row `r` numbered `n` whose status
is not "registered", `SetAddress n a` returns no error and leaves the store as it
was, so `Get n` afterwards still returns `r`, with its original address (the
engine failing during neither call). -/
theorem setAddress_not_registered (s : ParcelStore) (env env' : Faults) (n : Int) (a : String)
    (r : Parcel) (hpk : PrimaryKey s.db) (hr : r ∈ s.db.rows) (hn : r.Number = n)
    (hst : r.Status ≠ ParcelStatusRegistered) (he : env.exec = none)
    (he' : env'.exec = none) (hs' : env'.scan 0 = none) :
    s.SetAddress env n a = (none, s) ∧
    (s.SetAddress env n a).2.Get env' n = (r, none) ∧
    ((s.SetAddress env n a).2.Get env' n).1.Address = r.Address := by
  have hsame : s.SetAddress env n a = (none, s) := by
    rw [SetAddress_eq, he]
    have hrows : s.db.rows.map (fun x =>
        if x.Number = n ∧ x.Status = ParcelStatusRegistered then { x with Address := a }
        else x) = s.db.rows := by
      apply map_eq_self
      intro x hx
      by_cases hxn : x.Number = n
      · have hxe : x = r := eq_of_number_eq hpk hx hr (hxn.trans hn.symm)
        subst hxe
        simp [hst]
      · simp [hxn]
    simp only [hrows]
  have hget : (s.SetAddress env n a).2.Get env' n = (r, none) := by
    rw [hsame, ← hn]
    exact Get_stored hpk hr he' hs'
  refine ⟨hsame, hget, by rw [hget]⟩

/-- C6. `SetStatus` always updates the status: for a table that satisfies its primary
key, a row `r` numbered `n` (whatever its status) and any string `st` (recognised
status or not), `SetStatus n st` returns no error and `Get n` afterwards returns
`r` with its `Status` set to `st` (the engine failing during neither call). -/
theorem setStatus_updates (s : ParcelStore) (env env' : Faults) (n : Int) (st : String)
    (r : Parcel) (hpk : PrimaryKey s.db) (hr : r ∈ s.db.rows) (hn : r.Number = n)
    (he : env.exec = none) (he' : env'.exec = none) (hs' : env'.scan 0 = none) :
    (s.SetStatus env n st).1 = none ∧
    (s.SetStatus env n st).2.Get env' n = ({ r with Status := st }, none) ∧
    ((s.SetStatus env n st).2.Get env' n).1.Status = st := by
  have hget : (s.SetStatus env n st).2.Get env' n = ({ r with Status := st }, none) := by
    rw [SetStatus_eq, he, Get_eq, he']
    simp only
    rw [select_map _ n (by intro x; split <;> rfl), ← hn, select_unique hpk hr]
    simp [hs']
  refine ⟨by rw [SetStatus_eq, he], hget, by rw [hget]⟩

/-- The loop, when it ends without any error, has appended every pending row. -/
theorem scanRows_exhausted (env : Faults) (pending : List Parcel) :
    ∀ (k : Nat) (res out : List Parcel),
      scanRows env pending k res = .exhausted out none → out = res ++ pending := by
  induction pending with
  | nil =>
    intro k res out h
    simp only [scanRows, LoopExit.exhausted.injEq] at h
    simp [h.1]
  | cons p rest ih =>
    intro k res out h
    unfold scanRows at h
    cases hi : env.iter k with
    | some c => simp [hi] at h
    | none =>
      simp only [hi] at h
      cases hsc : env.scan k with
      | some c => simp [hsc] at h
      | none =>
        simp only [hsc] at h
        rw [ih (k + 1) (res ++ [p]) out h]
        simp

/-- The loop, when the engine does not fail, appends every pending row. -/
theorem scanRows_noFaults (env : Faults) (hscan : ∀ k, env.scan k = none)
    (hiter : ∀ k, env.iter k = none) (pending : List Parcel) :
    ∀ (k : Nat) (res : List Parcel),
      scanRows env pending k res = .exhausted (res ++ pending) none := by
  induction pending with
  | nil =>
    intro k res
    simp [scanRows, hiter]
  | cons p rest ih =>
    intro k res
    unfold scanRows
    simp only [hiter, hscan]
    rw [ih (k + 1) (res ++ [p])]
    simp

/-- A failing query is returned to the caller of `GetByClient`. -/
theorem GetByClient_query_error (s : ParcelStore) (env : Faults) (client : Int) (c : Nat)
    (he : env.exec = some c) :
    s.GetByClient env client = .returned [] (some (.storage c)) := by
  unfold ParcelStore.GetByClient DB.Query
  rw [he]

/-- A failing scan of the first row is returned to the caller of `GetByClient`. -/
theorem GetByClient_scan_error (s : ParcelStore) (env : Faults) (client : Int) (c : Nat)
    (p : Parcel) (hp : p ∈ s.db.rows) (hc : p.Client = client)
    (he : env.exec = none) (hi : env.iter 0 = none) (hs : env.scan 0 = some c) :
    s.GetByClient env client = .returned [] (some (.storage c)) := by
  unfold ParcelStore.GetByClient DB.Query DB.select
  rw [he]
  simp only
  have hmem : p ∈ s.db.rows.filter (fun r => decide (r.Client = client)) :=
    List.mem_filter.mpr ⟨hp, by simpa using hc⟩
  cases hf : s.db.rows.filter (fun r => decide (r.Client = client)) with
  | nil => rw [hf] at hmem; cases hmem
  | cons q rest => simp [scanRows, hi, hs]

/-- A failure of the cursor before the first row ends the process. -/
theorem GetByClient_iter_error (s : ParcelStore) (env : Faults) (client : Int) (c : Nat)
    (he : env.exec = none) (hi : env.iter 0 = some c) :
    s.GetByClient env client = .fatal (.storage c) := by
  unfold ParcelStore.GetByClient DB.Query
  rw [he]
  simp only
  cases hf : s.db.select (.selectByClient client) with
  | nil => simp [scanRows, hi]
  | cons q rest => simp [scanRows, hi]

/-- C7. `GetByClient c` returns exactly the stored parcels of client `c`: when the
engine does not fail the call returns, without error, the rows of client `c`;
every call that returns without error returns that list; its members are the
stored rows with `Client = c`, each as often as it is stored (exactly once in a
table that satisfies its primary key), its length is the number of matching
rows, and it is empty when no row matches. -/
theorem getByClient_exact (s : ParcelStore) (c : Int) :
    (∀ env : Faults, env.exec = none → (∀ k, env.scan k = none) → (∀ k, env.iter k = none) →
      s.GetByClient env c =
        .returned (s.db.rows.filter (fun r => decide (r.Client = c))) none) ∧
    (∀ (env : Faults) (res : List Parcel), s.GetByClient env c = .returned res none →
      res = s.db.rows.filter (fun r => decide (r.Client = c)) ∧
      (∀ p, p ∈ res ↔ p ∈ s.db.rows ∧ p.Client = c) ∧
      (∀ p, p.Client = c → res.count p = s.db.rows.count p) ∧
      res.length = s.db.rows.countP (fun r => decide (r.Client = c)) ∧
      (PrimaryKey s.db → ∀ p ∈ s.db.rows, p.Client = c → res.count p = 1) ∧
      ((∀ p ∈ s.db.rows, p.Client ≠ c) → res = [])) := by
  constructor
  · intro env he hscan hiter
    unfold ParcelStore.GetByClient DB.Query DB.select
    rw [he]
    simp only
    rw [scanRows_noFaults env hscan hiter]
    simp
  · intro env res h
    have hres : res = s.db.rows.filter (fun r => decide (r.Client = c)) := by
      unfold ParcelStore.GetByClient DB.Query DB.select at h
      cases he : env.exec with
      | some e => simp [he] at h
      | none =>
        simp only [he] at h
        cases hl : scanRows env (s.db.rows.filter (fun r => decide (r.Client = c))) 0 [] with
        | scanFailed err => simp [hl] at h
        | exhausted out rowsErr =>
          simp only [hl] at h
          cases rowsErr with
          | some err => simp at h
          | none =>
            simp only [Outcome.returned.injEq, and_true] at h
            have := scanRows_exhausted env _ 0 [] out hl
            rw [← h, this]
            simp
    have hcount : ∀ p, p.Client = c → res.count p = s.db.rows.count p := by
      intro p hp
      rw [hres, List.count_filter]
      simpa using hp
    refine ⟨hres, ?_, hcount, ?_, ?_, ?_⟩
    · intro p
      rw [hres]
      simp [List.mem_filter]
    · rw [hres, List.countP_eq_length_filter]
    · intro hpk p hp hpc
      rw [hcount p hpc]
      have hnd : s.db.rows.Nodup := List.Nodup.of_map _ hpk
      exact List.count_eq_one_of_mem hnd hp
    · intro hnone
      rw [hres, List.filter_eq_nil_iff]
      intro p hp
      simpa using hnone p hp

/-- C8. A failure of the row iteration during `GetByClient` ends the process: on the
empty table, when the cursor fails with code 10 on its first `Next`, the call
does not return the error to its caller, it stops the process with it. -/
theorem getByClient_iteration_failure_is_fatal :
    (NewParcelStore DB.empty).GetByClient
      { exec := none, lastId := none, scan := fun _ => none, iter := fun _ => some 10 } 1000 =
      .fatal (.storage 10) := by
  rfl

/-- The AUTOINCREMENT counter never decreases during `Add`. -/
theorem Add_seq_le (s : ParcelStore) (env : Faults) (p : Parcel) :
    s.db.seq ≤ (s.Add env p).2.db.seq := by
  unfold ParcelStore.Add DB.Exec DB.nextRowid Result.LastInsertId
  cases env.exec with
  | some c => exact le_refl _
  | none =>
    simp only
    by_cases hfull : MAX_ROWID ≤ max (maxNumber s.db.rows) (s.db.seq : Int)
    · simp [hfull]
    · simp only [hfull, if_false]
      have h1 := le_max_right (maxNumber s.db.rows) (s.db.seq : Int)
      cases env.lastId with
      | some c => simp only; omega
      | none => simp only; omega

theorem SetStatus_seq (s : ParcelStore) (env : Faults) (n : Int) (st : String) :
    (s.SetStatus env n st).2.db.seq = s.db.seq := by
  rw [SetStatus_eq]; cases env.exec <;> rfl

theorem SetAddress_seq (s : ParcelStore) (env : Faults) (n : Int) (a : String) :
    (s.SetAddress env n a).2.db.seq = s.db.seq := by
  rw [SetAddress_eq]; cases env.exec <;> rfl

theorem Delete_seq (s : ParcelStore) (env : Faults) (n : Int) :
    (s.Delete env n).2.db.seq = s.db.seq := by
  rw [Delete_eq]; cases env.exec <;> rfl

/-- Numbers returned by the `Add` calls of a sequence lie above the counter of the
state the sequence starts from, and they increase along the sequence. -/
theorem addedNumbers_increasing (cs : List Call) :
    ∀ s : ParcelStore,
      (∀ n ∈ addedNumbers s cs, (s.db.seq : Int) < n) ∧
      (addedNumbers s cs).Pairwise (fun a b => a < b) := by
  induction cs with
  | nil => intro s; simp [addedNumbers]
  | cons c cs ih =>
    intro s
    cases c with
    | Add env p =>
      simp only [addedNumbers]
      rcases hadd : s.Add env p with ⟨⟨n, err⟩, s'⟩
      cases err with
      | none =>
        simp only
        obtain ⟨hn, -, -, hseq⟩ := Add_ok hadd
        have hlt : (s.db.seq : Int) < n := by
          have := le_max_right (maxNumber s.db.rows) (s.db.seq : Int)
          omega
        have hs' : (s'.db.seq : Int) = n := by
          rw [hseq]; omega
        obtain ⟨h1, h2⟩ := ih s'
        rw [hs'] at h1
        constructor
        · intro m hm
          rcases List.mem_cons.mp hm with h | h
          · rw [h]; exact hlt
          · exact lt_trans hlt (h1 m h)
        · exact List.Pairwise.cons h1 h2
      | some e =>
        simp only
        have hle := Add_seq_le s env p
        rw [hadd] at hle
        obtain ⟨h1, h2⟩ := ih s'
        refine ⟨fun m hm => ?_, h2⟩
        have := h1 m hm
        simp only at hle
        omega
    | Get env number => simpa [addedNumbers] using ih s
    | GetByClient env client =>
      simp only [addedNumbers]
      cases s.GetByClient env client with
      | fatal e => exact ih s
      | returned v e => exact ih s
    | SetStatus env number status =>
      simp only [addedNumbers]
      have := ih (s.SetStatus env number status).2
      rwa [SetStatus_seq] at this
    | SetAddress env number address =>
      simp only [addedNumbers]
      have := ih (s.SetAddress env number address).2
      rwa [SetAddress_seq] at this
    | Delete env number =>
      simp only [addedNumbers]
      have := ih (s.Delete env number).2
      rwa [Delete_seq] at this

/-- `Add` succeeds when the engine does not fail and the largest rowid is unused. -/
theorem Add_succeeds (s : ParcelStore) (env : Faults) (p : Parcel)
    (he : env.exec = none) (hl : env.lastId = none)
    (hroom : max (maxNumber s.db.rows) (s.db.seq : Int) < MAX_ROWID) :
    (s.Add env p).1 = (max (maxNumber s.db.rows) (s.db.seq : Int) + 1, none) := by
  unfold ParcelStore.Add DB.Exec DB.nextRowid Result.LastInsertId
  have hfull : ¬ MAX_ROWID ≤ max (maxNumber s.db.rows) (s.db.seq : Int) := not_le.mpr hroom
  have hm0 : 0 ≤ max (maxNumber s.db.rows) (s.db.seq : Int) :=
    le_trans (maxNumber_nonneg _) (le_max_left _ _)
  simp only [he, hl, hfull, if_false]
  rw [toInt_of_range (by omega) (by omega)]

/-- C9. Numbers are unique and never reused: in every sequence of store calls, from
the empty table (and from any other state), the numbers returned by the
successful `Add` calls are positive and strictly increasing in the order of the
calls, so each differs from every number returned by an earlier `Add`, whether
or not its row has been deleted in between. -/
theorem add_numbers_never_reused (cs : List Call) :
    ((∀ n ∈ addedNumbers (NewParcelStore DB.empty) cs, 0 < n) ∧
      (addedNumbers (NewParcelStore DB.empty) cs).Pairwise (fun a b => a ≠ b)) ∧
    (∀ s : ParcelStore, (∀ n ∈ addedNumbers s cs, 0 < n) ∧
      (addedNumbers s cs).Pairwise (fun a b => a < b) ∧
      (addedNumbers s cs).Pairwise (fun a b => a ≠ b)) := by
  have hall : ∀ s : ParcelStore, (∀ n ∈ addedNumbers s cs, 0 < n) ∧
      (addedNumbers s cs).Pairwise (fun a b => a < b) ∧
      (addedNumbers s cs).Pairwise (fun a b => a ≠ b) := by
    intro s
    obtain ⟨h1, h2⟩ := addedNumbers_increasing cs s
    refine ⟨fun n hn => ?_, h2, h2.imp (fun h => ne_of_lt h)⟩
    have := h1 n hn
    omega
  exact ⟨⟨(hall _).1, (hall _).2.2⟩, hall⟩

/-- An update that keeps numbers and touches only rows numbered `n` leaves the rows
with other numbers as they were. -/
theorem others_map (rows : List Parcel) (f : Parcel → Parcel) (n : Int)
    (hnum : ∀ x, (f x).Number = x.Number) (hid : ∀ x, x.Number ≠ n → f x = x) :
    (rows.map f).filter (fun x => !decide (x.Number = n)) =
      rows.filter (fun x => !decide (x.Number = n)) := by
  induction rows with
  | nil => rfl
  | cons a t ih =>
    by_cases h : a.Number = n
    · simp [List.filter_cons, hnum, h, ih]
    · simp [List.filter_cons, h, hid a h, ih]

/-- A deletion restricted to rows numbered `n` leaves the rows with other numbers as
they were. -/
theorem others_filter (rows : List Parcel) (q : Parcel → Bool) (n : Int)
    (hq : ∀ x, x.Number ≠ n → q x = true) :
    (rows.filter q).filter (fun x => !decide (x.Number = n)) =
      rows.filter (fun x => !decide (x.Number = n)) := by
  induction rows with
  | nil => rfl
  | cons a t ih =>
    by_cases h : a.Number = n
    · cases hqa : q a <;> simp [List.filter_cons, hqa, h, ih]
    · simp [List.filter_cons, hq a h, h, ih]

/-- C10. Frame of the mutating calls.  Whether or not the engine fails, `SetStatus n`,
`SetAddress n` and `Delete n` leave the rows whose number differs from `n` as
they were (same rows, same order); they leave the whole store unchanged when no
row has number `n`; `SetStatus` changes no `Number`, `Client`, `Address` or
`CreatedAt` of any row and `SetAddress` no `Number`, `Client`, `Status` or
`CreatedAt`. -/
theorem mutators_frame (s : ParcelStore) (env : Faults) (n : Int) (st a : String) :
    ((s.SetStatus env n st).2.db.rows.filter (fun x => !decide (x.Number = n)) =
        s.db.rows.filter (fun x => !decide (x.Number = n)) ∧
      (s.SetAddress env n a).2.db.rows.filter (fun x => !decide (x.Number = n)) =
        s.db.rows.filter (fun x => !decide (x.Number = n)) ∧
      (s.Delete env n).2.db.rows.filter (fun x => !decide (x.Number = n)) =
        s.db.rows.filter (fun x => !decide (x.Number = n))) ∧
    ((∀ r ∈ s.db.rows, r.Number ≠ n) →
      (s.SetStatus env n st).2 = s ∧ (s.SetAddress env n a).2 = s ∧ (s.Delete env n).2 = s) ∧
    ((s.SetStatus env n st).2.db.rows.map (fun r => (r.Number, r.Client, r.Address, r.CreatedAt)) =
        s.db.rows.map (fun r => (r.Number, r.Client, r.Address, r.CreatedAt)) ∧
      (s.SetAddress env n a).2.db.rows.map (fun r => (r.Number, r.Client, r.Status, r.CreatedAt)) =
        s.db.rows.map (fun r => (r.Number, r.Client, r.Status, r.CreatedAt))) := by
  rw [SetStatus_eq, SetAddress_eq, Delete_eq]
  cases env.exec with
  | some c => simp
  | none =>
    simp only
    refine ⟨⟨?_, ?_, ?_⟩, ?_, ?_, ?_⟩
    · exact others_map _ _ n (by intro x; split <;> rfl) (by intro x hx; simp [hx])
    · exact others_map _ _ n (by intro x; split <;> rfl) (by intro x hx; simp [hx])
    · exact others_filter _ _ n (by intro x hx; simp [hx])
    · intro habs
      refine ⟨?_, ?_, ?_⟩
      · rw [map_eq_self _ (by intro x hx; simp [habs x hx])]
      · rw [map_eq_self _ (by intro x hx; simp [habs x hx])]
      · have hrows : s.db.rows.filter (fun r =>
            !decide (r.Number = n ∧ r.Status = ParcelStatusRegistered)) = s.db.rows := by
          rw [List.filter_eq_self]
          intro x hx
          simp [habs x hx]
        rw [hrows]
    · rw [List.map_map]
      apply List.map_congr_left
      intro x _
      simp only [Function.comp]
      split <;> rfl
    · rw [List.map_map]
      apply List.map_congr_left
      intro x _
      simp only [Function.comp]
      split <;> rfl

/-! ## The primary key is kept by every call -/

theorem PrimaryKey_empty : PrimaryKey DB.empty := by
  simp [PrimaryKey, DB.empty]

theorem PrimaryKey_Add (s : ParcelStore) (env : Faults) (p : Parcel) (hpk : PrimaryKey s.db) :
    PrimaryKey (s.Add env p).2.db := by
  unfold ParcelStore.Add DB.Exec DB.nextRowid Result.LastInsertId
  cases env.exec with
  | some c => exact hpk
  | none =>
    simp only
    by_cases hfull : MAX_ROWID ≤ max (maxNumber s.db.rows) (s.db.seq : Int)
    · simpa [hfull] using hpk
    · simp only [hfull, if_false]
      have hnew : PrimaryKey
          { rows := s.db.rows ++ [{ Number := max (maxNumber s.db.rows) (s.db.seq : Int) + 1,
                                    Client := p.Client, Address := p.Address,
                                    Status := p.Status, CreatedAt := p.CreatedAt }],
            seq := (max (maxNumber s.db.rows) (s.db.seq : Int) + 1).toNat } := by
        unfold PrimaryKey at hpk ⊢
        simp only [List.map_append, List.map_cons, List.map_nil]
        apply List.Nodup.append hpk (List.nodup_singleton _)
        intro y hmem hy
        rw [List.mem_singleton] at hy
        subst hy
        obtain ⟨x, hx, hxe⟩ := List.mem_map.mp hmem
        have h1 := le_maxNumber hx
        have h2 := le_max_left (maxNumber s.db.rows) (s.db.seq : Int)
        omega
      cases env.lastId <;> exact hnew

theorem numbers_map (rows : List Parcel) (f : Parcel → Parcel)
    (hnum : ∀ x, (f x).Number = x.Number) :
    (rows.map f).map (fun r => r.Number) = rows.map (fun r => r.Number) := by
  rw [List.map_map]
  apply List.map_congr_left
  intro x _
  exact hnum x

theorem PrimaryKey_SetStatus (s : ParcelStore) (env : Faults) (n : Int) (st : String)
    (hpk : PrimaryKey s.db) : PrimaryKey (s.SetStatus env n st).2.db := by
  rw [SetStatus_eq]
  cases env.exec with
  | some c => exact hpk
  | none =>
    unfold PrimaryKey at hpk ⊢
    simp only
    rw [numbers_map _ _ (by intro x; split <;> rfl)]
    exact hpk

theorem PrimaryKey_SetAddress (s : ParcelStore) (env : Faults) (n : Int) (a : String)
    (hpk : PrimaryKey s.db) : PrimaryKey (s.SetAddress env n a).2.db := by
  rw [SetAddress_eq]
  cases env.exec with
  | some c => exact hpk
  | none =>
    unfold PrimaryKey at hpk ⊢
    simp only
    rw [numbers_map _ _ (by intro x; split <;> rfl)]
    exact hpk

theorem PrimaryKey_Delete (s : ParcelStore) (env : Faults) (n : Int)
    (hpk : PrimaryKey s.db) : PrimaryKey (s.Delete env n).2.db := by
  rw [Delete_eq]
  cases env.exec with
  | some c => exact hpk
  | none =>
    unfold PrimaryKey at hpk ⊢
    simp only
    exact List.Nodup.sublist (List.Sublist.map _ (List.filter_sublist _)) hpk

/-! ## The claims at concrete stores -/

/-- C1 at the test scenario: the first `Add` on a new table returns 1 and `Get 1`
returns the test parcel with number 1. -/
theorem add_get_roundtrip_witness :
    (NewParcelStore DB.empty).Add noFaults (getTestParcel "2024-05-01T10:00:00Z") =
      ((1, none), storeOne) ∧
    storeOne.Get noFaults 1 =
      ({ getTestParcel "2024-05-01T10:00:00Z" with Number := 1 }, none) :=
  ⟨by decide,
   add_get_roundtrip (NewParcelStore DB.empty) storeOne noFaults noFaults
     (getTestParcel "2024-05-01T10:00:00Z") 1 (by decide) rfl rfl⟩

/-- C2 at `storeTwo`: parcel 1 is registered, `Delete 1` removes it. -/
theorem delete_registered_witness :
    PrimaryKey storeTwo.db ∧
    (storeTwo.Delete noFaults 1).2.Get noFaults 1 = (Parcel.zero, some .ErrNoRows) :=
  ⟨by decide,
   (delete_registered storeTwo noFaults 1
      { Number := 1, Client := 1000, Address := "test", Status := "registered",
        CreatedAt := "2024-05-01T10:00:00Z" }
      (by decide) (by decide) rfl rfl rfl).2.2.1 noFaults rfl⟩

/-- C3 at `storeTwo`: parcel 3 is sent, `Delete 3` changes nothing. -/
theorem delete_not_registered_witness :
    PrimaryKey storeTwo.db ∧ storeTwo.Delete noFaults 3 = (none, storeTwo) :=
  ⟨by decide,
   (delete_not_registered storeTwo noFaults 3
      { Number := 3, Client := 42, Address := "depot", Status := "sent",
        CreatedAt := "2024-05-02T08:30:00Z" }
      (by decide) (by decide) rfl (by decide) rfl).1⟩

/-- C4 at `storeTwo`: parcel 1 is registered, its address changes. -/
theorem setAddress_registered_witness :
    PrimaryKey storeTwo.db ∧
    ((storeTwo.SetAddress noFaults 1 "new test address").2.Get noFaults 1).1.Address =
      "new test address" :=
  ⟨by decide,
   (setAddress_registered storeTwo noFaults noFaults 1 "new test address"
      { Number := 1, Client := 1000, Address := "test", Status := "registered",
        CreatedAt := "2024-05-01T10:00:00Z" }
      (by decide) (by decide) rfl rfl rfl rfl rfl).2.2⟩

/-- C5 at `storeTwo`: parcel 3 is sent, its address stays "depot". -/
theorem setAddress_not_registered_witness :
    PrimaryKey storeTwo.db ∧
    ((storeTwo.SetAddress noFaults 3 "new test address").2.Get noFaults 3).1.Address =
      "depot" :=
  ⟨by decide,
   (setAddress_not_registered storeTwo noFaults noFaults 3 "new test address"
      { Number := 3, Client := 42, Address := "depot", Status := "sent",
        CreatedAt := "2024-05-02T08:30:00Z" }
      (by decide) (by decide) rfl (by decide) rfl rfl rfl).2.2⟩

/-- C6 at `storeTwo`: parcel 3 is sent, `SetStatus` to an unrecognised status. -/
theorem setStatus_updates_witness :
    PrimaryKey storeTwo.db ∧
    ((storeTwo.SetStatus noFaults 3 "lost at sea").2.Get noFaults 3).1.Status =
      "lost at sea" :=
  ⟨by decide,
   (setStatus_updates storeTwo noFaults noFaults 3 "lost at sea"
      { Number := 3, Client := 42, Address := "depot", Status := "sent",
        CreatedAt := "2024-05-02T08:30:00Z" }
      (by decide) (by decide) rfl rfl rfl rfl).2.2⟩

/-- C7 at `storeTwo`: client 42 has one parcel, client 5 has none. -/
theorem getByClient_exact_witness :
    storeTwo.GetByClient noFaults 42 =
      .returned [{ Number := 3, Client := 42, Address := "depot", Status := "sent",
                   CreatedAt := "2024-05-02T08:30:00Z" }] none ∧
    storeTwo.GetByClient noFaults 5 = .returned [] none :=
  ⟨(getByClient_exact storeTwo 42).1 noFaults rfl (fun _ => rfl) (fun _ => rfl),
   (getByClient_exact storeTwo 5).1 noFaults rfl (fun _ => rfl) (fun _ => rfl)⟩

/-- C9 at the test scenario: add, delete, add again; the number 1 is not reused. -/
theorem add_numbers_never_reused_witness :
    addedNumbers (NewParcelStore DB.empty)
      [.Add noFaults (getTestParcel "2024-05-01T10:00:00Z"), .Delete noFaults 1,
       .Add noFaults (getTestParcel "2024-05-01T10:00:01Z")] = [1, 2] ∧
    (addedNumbers (NewParcelStore DB.empty)
      [.Add noFaults (getTestParcel "2024-05-01T10:00:00Z"), .Delete noFaults 1,
       .Add noFaults (getTestParcel "2024-05-01T10:00:01Z")]).Pairwise (fun a b => a ≠ b) :=
  ⟨by decide,
   (add_numbers_never_reused
      [.Add noFaults (getTestParcel "2024-05-01T10:00:00Z"), .Delete noFaults 1,
       .Add noFaults (getTestParcel "2024-05-01T10:00:01Z")]).1.2⟩

/-- C10 at `storeTwo`: no row has number 2, the three calls change nothing. -/
theorem mutators_frame_witness :
    (∀ r ∈ storeTwo.db.rows, r.Number ≠ 2) ∧
    (storeTwo.SetStatus noFaults 2 "sent").2 = storeTwo ∧
    (storeTwo.SetAddress noFaults 2 "dock").2 = storeTwo ∧
    (storeTwo.Delete noFaults 2).2 = storeTwo :=
  ⟨by decide, (mutators_frame storeTwo noFaults 2 "sent" "dock").2.1 (by decide)⟩

end Tracker
